import Mathlib

/-!
Verification development for `adv_watch.py` (ADVMonitor).

The program is a single linear pipeline: discover the latest Form ADV
filing link on a firm summary page (anchor scan with a regex fallback),
parse the `ORG_PK`/`FLNG_PK` query parameters, fetch the filing's
signature page, extract the filing date (`MM/DD/YYYY`), compare against
the persisted state, persist the new state, and write a `CHANGED.txt`
marker on a detected change.

Strings are modelled byte-for-byte as Lean `String`s; all scanning
functions are written as structural recursions over `List Char` so that
every definition evaluates by kernel reduction.  The external library
collaborators (`urllib.parse`, `BeautifulSoup`'s `html.parser`, `re`)
are embedded by direct models of their documented behaviour on the
inputs this program feeds them (ASCII text, well-formed markup).
-/

namespace AdvWatch

/-- Whitespace characters as used by Python's `str.strip` / `str.split`
(ASCII subset: space, tab, newline, carriage return, vertical tab, form feed). -/
def isSpaceChar (c : Char) : Bool :=
  c == ' ' || c == '\t' || c == '\n' || c == '\r' ||
  c == Char.ofNat 11 || c == Char.ofNat 12

/-- The single-quote character (written via its code point). -/
def squote : Char := Char.ofNat 39

/-- Substring test on character lists: `containsSubL n l` is true iff `n`
occurs contiguously inside `l`.  Models Python's `n in l`. -/
def containsSubL (n : List Char) : List Char → Bool
  | [] => n.isEmpty
  | c :: rest => n.isPrefixOf (c :: rest) || containsSubL n rest

/-- Substring test on strings, modelling Python's `needle in hay`. -/
def containsSub (needle hay : String) : Bool :=
  containsSubL needle.toList hay.toList

/-- Model of Python's `hay.startswith(p)`. -/
def startsWithStr (hay p : String) : Bool :=
  p.toList.isPrefixOf hay.toList

/-- Split a character list at every occurrence of `sep`, keeping empty
segments.  Models Python's `s.split(sep)` for a one-character separator. -/
def splitOnChar (sep : Char) : List Char → List (List Char)
  | [] => [[]]
  | c :: rest =>
    if c = sep then [] :: splitOnChar sep rest
    else
      match splitOnChar sep rest with
      | g :: gs => (c :: g) :: gs
      | [] => [[c]]

/-- Split at the first occurrence of `sep`: returns the parts before and
after it, or `none` when `sep` does not occur.  Models `s.split(sep, 1)`. -/
def splitOnce (sep : Char) : List Char → Option (List Char × List Char)
  | [] => none
  | c :: rest =>
    if c = sep then some ([], rest)
    else (splitOnce sep rest).map (fun p => (c :: p.1, p.2))

/-- Hexadecimal digit value, `none` for a non-hex character. -/
def hexVal (c : Char) : Option Nat :=
  if '0' ≤ c ∧ c ≤ '9' then some (c.toNat - '0'.toNat)
  else if 'a' ≤ c ∧ c ≤ 'f' then some (c.toNat - 'a'.toNat + 10)
  else if 'A' ≤ c ∧ c ≤ 'F' then some (c.toNat - 'A'.toNat + 10)
  else none

/-- Model of `urllib.parse.unquote_plus` on the character level: `+`
becomes a space and `%hh` (two hex digits) becomes the character with
that code; malformed escapes are left untouched.  (CPython decodes the
bytes and then UTF-8-decodes them; on the ASCII range used by this
program the two agree.) -/
def unquotePlus : List Char → List Char
  | [] => []
  | '+' :: rest => ' ' :: unquotePlus rest
  | '%' :: a :: b :: rest =>
    match hexVal a, hexVal b with
    | some ha, some hb => Char.ofNat (16 * ha + hb) :: unquotePlus rest
    | _, _ => '%' :: unquotePlus (a :: b :: rest)
  | c :: rest => c :: unquotePlus rest

/-- Model of `urllib.parse.parse_qsl(qs)` with default arguments:
split on `&`, skip empty fields, skip fields without `=` and fields with
an empty value (`keep_blank_values=False`), and unquote names and values. -/
def parse_qsl (qs : List Char) : List (String × String) :=
  (splitOnChar '&' qs).filterMap fun f =>
    if f.isEmpty then none
    else
      match splitOnce '=' f with
      | none => none
      | some (n, v) =>
        if v.isEmpty then none
        else some (String.mk (unquotePlus n), String.mk (unquotePlus v))

/-- First value stored under key `k`, i.e. `parse_qs(qs)[k][0]`
(`parse_qs` groups values by key in order of occurrence). -/
def qsFirst (q : List (String × String)) (k : String) : Option String :=
  (q.find? (fun p => p.1 == k)).map (fun p => p.2)

/-- Model of `urlparse(url).query`: drop everything from the first `#`
(the fragment), then take everything after the first `?` of the rest. -/
def urlQuery (url : String) : List Char :=
  let noFrag := url.toList.takeWhile (· ≠ '#')
  match splitOnce '?' noFrag with
  | some p => p.2
  | none => []

/-- Embedding of `extract_org_and_flng` (adv_watch.py lines 63-72): parse
`ORG_PK` and `FLNG_PK` from the URL query string; `if not org or not flng`
(Python truthiness: `None` or the empty string) raises. -/
def extract_org_and_flng (url : String) : Except String (String × String) :=
  let q := parse_qsl (urlQuery url)
  match qsFirst q "ORG_PK", qsFirst q "FLNG_PK" with
  | some org, some flng =>
    if org = "" || flng = "" then
      .error ("Could not parse ORG_PK/FLNG_PK from URL: " ++ url)
    else
      .ok (org, flng)
  | _, _ => .error ("Could not parse ORG_PK/FLNG_PK from URL: " ++ url)

/-! ### Link discovery (`extract_latest_viewform_link`, adv_watch.py lines 39-61)

The anchor scan models `BeautifulSoup(html, "html.parser")` followed by
`find_all("a", href=True)` on well-formed markup: every `<a ...>` tag
contributes its `href` attribute value (quoted with either quote
character or unquoted, `&amp;` entity-decoded), in document order. -/

/-- Characters that may follow the tag name `a` inside a tag. -/
def isDelimChar (c : Char) : Bool :=
  isSpaceChar c || c == '/' || c == '>'

/-- Recognise that the text right after a `<` begins an anchor tag. -/
def anchorTagHead : List Char → Bool
  | [] => false
  | c :: rest =>
    (c == 'a' || c == 'A') &&
    (match rest with
     | [] => true
     | d :: _ => isDelimChar d)

/-- Case-insensitive character comparison (tag and attribute names are
case-insensitive in HTML). -/
def lowerEq (a b : Char) : Bool :=
  a.toLower == b.toLower

/-- Case-insensitive prefix test used to find an attribute name. -/
def matchesKeyAt : List Char → List Char → Bool
  | [], _ => true
  | _ :: _, [] => false
  | p :: ps, c :: cs => lowerEq p c && matchesKeyAt ps cs

/-- Parse an attribute value: a double- or single-quoted string, or an
unquoted token running until whitespace or the end of the tag. -/
def parseAttrVal : List Char → List Char
  | [] => []
  | c :: rest =>
    if c = '"' then rest.takeWhile (· ≠ '"')
    else if c = squote then rest.takeWhile (· ≠ squote)
    else (c :: rest).takeWhile (fun x => !isSpaceChar x && x ≠ '>')

/-- Replace every occurrence of the `&amp;` entity by `&`, scanning left
to right.  The HTML parser performs this decoding on attribute values,
and the fallback branch performs it explicitly via
`.replace("&amp;", "&")` (adv_watch.py line 59). -/
def replaceAmp : List Char → List Char
  | '&' :: 'a' :: 'm' :: 'p' :: ';' :: rest => '&' :: replaceAmp rest
  | c :: rest => c :: replaceAmp rest
  | [] => []

/-- Scan the inside of a tag for an `href=` attribute (preceded by
whitespace) and return its raw value. -/
def findHrefValAux : Char → List Char → Option (List Char)
  | _, [] => none
  | prev, c :: rest =>
    if isSpaceChar prev && matchesKeyAt "href=".toList (c :: rest) then
      some (parseAttrVal ((c :: rest).drop 5))
    else findHrefValAux c rest

/-- The `href` attribute value of a tag body (entity-decoded), if any. -/
def findHrefIn (tag : List Char) : Option String :=
  (findHrefValAux 'a' tag).map (fun v => String.mk (replaceAmp v))

/-- Collect the `href` values of all anchor tags, in document order.
The fuel argument only bounds the recursion; `findAHrefs` supplies more
fuel than characters, so it never runs out. -/
def findAHrefsAux : Nat → List Char → List String
  | 0, _ => []
  | _, [] => []
  | fuel + 1, c :: rest =>
    if c = '<' && anchorTagHead rest then
      match findHrefIn (rest.takeWhile (· ≠ '>')) with
      | some v => v :: findAHrefsAux fuel ((rest.dropWhile (· ≠ '>')).drop 1)
      | none => findAHrefsAux fuel ((rest.dropWhile (· ≠ '>')).drop 1)
    else findAHrefsAux fuel rest

/-- Model of `[a["href"] for a in soup.find_all("a", href=True)]`. -/
def findAHrefs (html : String) : List String :=
  findAHrefsAux (html.toList.length + 1) html.toList

/-- Body of the anchor loop (adv_watch.py lines 47-54): an anchor is
selected when its `href` contains both `FLNG_PK=` and `ORG_PK=`; a
host-relative `href` is prefixed with the host, an absolute one is
returned as is, and any other `href` is skipped (the loop continues). -/
def anchorPick (href : String) : Option String :=
  if containsSub "FLNG_PK=" href && containsSub "ORG_PK=" href then
    if startsWithStr href "/" then some ("https://adviserinfo.sec.gov" ++ href)
    else if startsWithStr href "http" then some href
    else none
  else none

/-- The anchor loop: first anchor accepted by `anchorPick`. -/
def anchorScan (summary_html : String) : Option String :=
  (findAHrefs summary_html).findSome? anchorPick

/-- Scheme alternatives of the fallback pattern `https?://` (the greedy
optional `s` prefers the longer scheme). -/
def schemeLenAt (cs : List Char) : Option Nat :=
  if "https://".toList.isPrefixOf cs then some 8
  else if "http://".toList.isPrefixOf cs then some 7
  else none

/-- Character lookup helpers for the fallback pattern. -/
def isDigitAt (l : List Char) (i : Nat) : Bool :=
  match l.get? i with
  | some c => c.isDigit
  | none => false

/-- Alphanumeric character at an index (ASCII `[A-Za-z0-9]`). -/
def isAlnumAt (l : List Char) (i : Nat) : Bool :=
  match l.get? i with
  | some c => c.isAlphanum
  | none => false

/-- Condition for the body of the fallback pattern
`[^"\']+ORG_PK=\d+[^"\']*FLNG_PK=[A-Za-z0-9]+[^"\']*` to match inside
the quote-free run `R` that follows the scheme: `ORG_PK=` must occur at
some index `j ≥ 1` followed by a digit, and `FLNG_PK=` at some `k ≥ j+8`
followed by an alphanumeric character.  The matched extent is then the
whole of `R`, because every trailing piece of the pattern is a greedy
quote-free class. -/
def fallbackOk (R : List Char) : Bool :=
  (List.range R.length).any fun j =>
    decide (1 ≤ j) && "ORG_PK=".toList.isPrefixOf (R.drop j) && isDigitAt R (j + 7) &&
    ((List.range R.length).any fun k =>
      decide (j + 8 ≤ k) && "FLNG_PK=".toList.isPrefixOf (R.drop k) && isAlnumAt R (k + 8))

/-- Attempt of the fallback pattern anchored at the head of `cs`. -/
def fallbackAt (cs : List Char) : Option (List Char) :=
  match schemeLenAt cs with
  | none => none
  | some n =>
    let R := (cs.drop n).takeWhile (fun c => c ≠ '"' && c ≠ squote)
    if fallbackOk R then some (cs.take n ++ R) else none

/-- Leftmost match of the fallback pattern (`re.search` scans left to
right). -/
def fallbackSearchAux : List Char → Option (List Char)
  | [] => none
  | c :: rest =>
    match fallbackAt (c :: rest) with
    | some m => some m
    | none => fallbackSearchAux rest

/-- Model of `re.search(r'(https?://[^"\']+ORG_PK=\d+[^"\']*FLNG_PK=[A-Za-z0-9]+[^"\']*)', summary_html)`
returning `group(1)` (adv_watch.py line 57). -/
def fallbackSearch (summary_html : String) : Option String :=
  (fallbackSearchAux summary_html.toList).map String.mk

/-- Embedding of `extract_latest_viewform_link` (adv_watch.py lines
39-61): first matching anchor, else the regex fallback with `&amp;`
replaced by `&`, else an error. -/
def extract_latest_viewform_link (summary_html : String) : Except String String :=
  match anchorScan summary_html with
  | some url => .ok url
  | none =>
    match fallbackSearch summary_html with
    | some m => .ok (String.mk (replaceAmp m.toList))
    | none => .error "Could not find latest ADV viewform link on firm summary page."

/-! ### Filing-date extraction (`extract_filing_date`, adv_watch.py lines 83-93) -/

/-- Strip leading and trailing whitespace, modelling Python's
`str.strip()` on ASCII text. -/
def stripL (l : List Char) : List Char :=
  ((l.dropWhile isSpaceChar).reverse.dropWhile isSpaceChar).reverse

/-- The text chunks of a document, split at every tag: characters
accumulate into the current chunk and a `<...>` tag (skipped up to the
closing `>`) ends it.  Models the text nodes seen by the HTML parser. -/
def textNodes : Nat → List Char → List (List Char)
  | 0, _ => [[]]
  | _, [] => [[]]
  | fuel + 1, c :: rest =>
    if c = '<' then
      [] :: textNodes fuel ((rest.dropWhile (· ≠ '>')).drop 1)
    else
      match textNodes fuel rest with
      | g :: gs => (c :: g) :: gs
      | [] => [[c]]

/-- Model of `BeautifulSoup(html, "html.parser").get_text(" ", strip=True)`:
the stripped non-empty text nodes joined with a single space. -/
def soupGetText (html : String) : String :=
  String.mk
    (List.intercalate [' ']
      (((textNodes (html.toList.length + 1) html.toList).map stripL).filter (· ≠ [])))

/-- Word characters for the regex `\b` boundary (`\w`, ASCII subset). -/
def wordChar (c : Char) : Bool :=
  c.isAlphanum || c == '_'

/-- Shape test for the date pattern body
`(0[1-9]|1[0-2])/(0[1-9]|[12][0-9]|3[01])/\d{4}`: exactly ten characters
`MM/DD/YYYY` with month `01`-`12` and day `01`-`31`. -/
def dateShape : List Char → Bool
  | [m1, m2, s1, d1, d2, s2, y1, y2, y3, y4] =>
    s1 == '/' && s2 == '/' &&
    ((m1 == '0' && m2.isDigit && m2 != '0') ||
      (m1 == '1' && (m2 == '0' || m2 == '1' || m2 == '2'))) &&
    ((d1 == '0' && d2.isDigit && d2 != '0') ||
      ((d1 == '1' || d1 == '2') && d2.isDigit) ||
      (d1 == '3' && (d2 == '0' || d2 == '1'))) &&
    y1.isDigit && y2.isDigit && y3.isDigit && y4.isDigit
  | _ => false

/-- The full date pattern `\b(0[1-9]|1[0-2])/(0[1-9]|[12][0-9]|3[01])/\d{4}\b`
matches at index `i`: a word boundary before `i`, the ten-character date
shape, and a word boundary after it. -/
def dateMatchAt (cs : List Char) (i : Nat) : Bool :=
  (match i with
   | 0 => true
   | j + 1 =>
     match cs.get? j with
     | some c => !wordChar c
     | none => true) &&
  dateShape ((cs.drop i).take 10) &&
  (match cs.get? (i + 10) with
   | some c => !wordChar c
   | none => true)

/-- Leftmost index at which the date pattern matches, searched from `i`
with explicit fuel. -/
def findDateAux (cs : List Char) : Nat → Nat → Option Nat
  | _, 0 => none
  | i, fuel + 1 => if dateMatchAt cs i then some i else findDateAux cs (i + 1) fuel

/-- Leftmost match index of the date pattern (`re.search` semantics). -/
def findDateIdx (cs : List Char) : Option Nat :=
  findDateAux cs 0 cs.length

/-- Leftmost match of the date pattern, as its ten characters. -/
def findDate (cs : List Char) : Option (List Char) :=
  (findDateIdx cs).map (fun i => (cs.drop i).take 10)

/-- Regex step of `extract_filing_date` applied to the already extracted
page text (adv_watch.py lines 90-93). -/
def extract_date_from_text (text : String) : Except String String :=
  match findDate text.toList with
  | some m => .ok (String.mk m)
  | none => .error "Could not locate a MM/DD/YYYY date in signature page HTML."

/-- Embedding of `extract_filing_date` (adv_watch.py lines 83-93):
reduce the markup to plain text, then search for the date pattern. -/
def extract_filing_date (signature_html : String) : Except String String :=
  extract_date_from_text (soupGetText signature_html)

/-- Modelled from the spec sentence behind claim C3 ("the first substring
matching the pattern MM/DD/YYYY with month 01-12 and day 01-31"): the
leftmost ten-character substring of the date shape, with no word-boundary
requirement.  This is the spec's reading, kept separate from the code's
`findDate` for comparison. -/
def firstDateSubstring (cs : List Char) : Option (List Char) :=
  ((List.range cs.length).find? (fun i => dateShape ((cs.drop i).take 10))).map
    (fun i => (cs.drop i).take 10)

/-! ### Constants, state store and the main pipeline (adv_watch.py lines 10-32, 74-81, 95-144) -/

/-- The monitored firm's CRD number (adv_watch.py line 12). -/
def CRD : Nat := 307151

/-- The fixed firm summary URL (adv_watch.py line 13,
`f"https://adviserinfo.sec.gov/firm/summary/{CRD}"` with `CRD = 307151`). -/
def FIRM_SUMMARY_URL : String :=
  "https://adviserinfo.sec.gov/firm/summary/307151"

/-- Embedding of `build_signature_url` (adv_watch.py lines 74-81). -/
def build_signature_url (org_pk flng_pk : String) : String :=
  "https://files.adviserinfo.sec.gov/IAPD/content/viewform/adv/Sections/" ++
    "iapd_AdvSignatureSection.aspx?ORG_PK=" ++ org_pk ++ "&FLNG_PK=" ++ flng_pk

/-- A persisted per-entity record.  `main` writes all eight fields; a
record read back from disk may lack any of them (`prev.get(...)` returns
`None` for a missing field), so every field is optional. -/
structure EntityRecord where
  last_checked_utc : Option String := none
  crd : Option Nat := none
  org_pk : Option String := none
  flng_pk : Option String := none
  filing_date : Option String := none
  firm_summary_url : Option String := none
  viewform_url_found : Option String := none
  signature_url_used : Option String := none
deriving DecidableEq, Repr

/-- The persisted state: a JSON object mapping entity names to records,
modelled as an association list in key order. -/
def StateMap : Type := List (String × EntityRecord)

/-- Dictionary lookup, `state.get(k)`. -/
def dictGet (m : StateMap) (k : String) : Option EntityRecord :=
  match m with
  | [] => none
  | (k', v) :: rest => if k' = k then some v else dictGet rest k

/-- Dictionary assignment `state[k] = v`: replace the value of an
existing key in place, or append a new key at the end. -/
def dictSet (m : StateMap) (k : String) (v : EntityRecord) : StateMap :=
  match m with
  | [] => [(k, v)]
  | (k', v') :: rest => if k' = k then (k, v) :: rest else (k', v') :: dictSet rest k v

/-- Embedding of `load_state` (adv_watch.py lines 26-29): the on-disk
JSON document is modelled by the parsed mapping it holds; a missing file
(`none`) yields the empty mapping. -/
def load_state (file : Option StateMap) : StateMap :=
  match file with
  | some state => state
  | none => []

/-- Embedding of `save_state` (adv_watch.py lines 31-32): the full
current mapping is serialized and becomes the new file content, which is
modelled by the mapping itself. -/
def save_state (state : StateMap) : StateMap :=
  state

/-- Python `!=` between the current (string) value and a stored value
that may be `None`: a string never equals `None`. -/
def pyStrNe (cur : String) (stored : Option String) : Bool :=
  match stored with
  | none => true
  | some p => cur != p

/-- Python string interpolation of a value that may be `None`. -/
def pyStr : Option String → String
  | none => "None"
  | some s => s

/-- Content of the `CHANGED.txt` marker file (adv_watch.py lines 134-141). -/
def markerText (prev_date filing_date : String) (prev_flng : Option String)
    (flng_pk signature_url : String) : String :=
  "Elliott ADV changed\n" ++
  "Previous date: " ++ prev_date ++ "\n" ++
  "Current date : " ++ filing_date ++ "\n" ++
  "Previous FLNG_PK: " ++ pyStr prev_flng ++ "\n" ++
  "Current FLNG_PK : " ++ flng_pk ++ "\n\n" ++
  "Signature URL:\n" ++ signature_url ++ "\n"

/-- The three-way classification of a run. -/
inductive Classification where
  | BASELINE
  | CHANGED
  | UNCHANGED
deriving DecidableEq, Repr

/-- Observable outcome of a successful run: the state written by
`save_state`, the classification, the marker file content (when one is
written) and the status line printed to standard output. -/
structure RunResult where
  state : StateMap
  classification : Classification
  marker : Option String
  printed : String

/-- The record written for the monitored entity on every successful run
(adv_watch.py lines 113-122). -/
def newRecord (now viewform_url org_pk flng_pk filing_date : String) : EntityRecord :=
  { last_checked_utc := some now
    crd := some CRD
    org_pk := some org_pk
    flng_pk := some flng_pk
    filing_date := some filing_date
    firm_summary_url := some FIRM_SUMMARY_URL
    viewform_url_found := some viewform_url
    signature_url_used := some (build_signature_url org_pk flng_pk) }

/-- Embedding of `main` (adv_watch.py lines 95-144).  The summary page
body is the given `summary_html` (its fetch already succeeded); the
signature page fetch is the function `fetchSig` (an `.error` models
`raise_for_status` or a transport failure, which aborts the run);
`now` is the `utc_now()` timestamp.  An `.error` result models an
uncaught exception: nothing is persisted and no marker is written. -/
def runMain (state : StateMap) (summary_html : String)
    (fetchSig : String → Except String String) (now : String) :
    Except String RunResult :=
  let prev := (dictGet state "elliott").getD {}
  match extract_latest_viewform_link summary_html with
  | .error e => .error e
  | .ok viewform_url =>
    match extract_org_and_flng viewform_url with
    | .error e => .error e
    | .ok (org_pk, flng_pk) =>
      let signature_url := build_signature_url org_pk flng_pk
      match fetchSig signature_url with
      | .error e => .error e
      | .ok sig_html =>
        match extract_filing_date sig_html with
        | .error e => .error e
        | .ok filing_date =>
          let newState := save_state (dictSet state "elliott"
            (newRecord now viewform_url org_pk flng_pk filing_date))
          match prev.filing_date with
          | none =>
            .ok { state := newState, classification := .BASELINE, marker := none,
                  printed := "First run baseline stored: " ++ filing_date ++
                    " (" ++ flng_pk ++ ")" }
          | some prev_date =>
            if filing_date != prev_date || pyStrNe flng_pk prev.flng_pk then
              .ok { state := newState, classification := .CHANGED,
                    marker := some (markerText prev_date filing_date prev.flng_pk
                      flng_pk signature_url),
                    printed := "CHANGED" }
            else
              .ok { state := newState, classification := .UNCHANGED, marker := none,
                    printed := "NO CHANGE" }

/-- Two records agree on every persisted field except the
`last_checked_utc` timestamp. -/
def recEqExceptTime (a b : EntityRecord) : Prop :=
  a.crd = b.crd ∧ a.org_pk = b.org_pk ∧ a.flng_pk = b.flng_pk ∧
  a.filing_date = b.filing_date ∧ a.firm_summary_url = b.firm_summary_url ∧
  a.viewform_url_found = b.viewform_url_found ∧
  a.signature_url_used = b.signature_url_used

/-- Two state entries agree on their key and on every record field
except the timestamp. -/
def entryEqExceptTime (p q : String × EntityRecord) : Prop :=
  p.1 = q.1 ∧ recEqExceptTime p.2 q.2

end AdvWatch

namespace AdvWatch

/-! ### Substring and dictionary lemmas -/

theorem isPrefixOf_append_self (n t : List Char) : n.isPrefixOf (n ++ t) = true := by
  induction n with
  | nil => simp
  | cons c cs ih => simp [List.isPrefixOf, ih]

theorem containsSubL_of_isPrefixOf (n l : List Char) (h : n.isPrefixOf l = true) :
    containsSubL n l = true := by
  cases l with
  | nil =>
    cases n with
    | nil => rfl
    | cons c cs => simp [List.isPrefixOf] at h
  | cons c rest => simp [containsSubL, h]

theorem containsSubL_self_append (n t : List Char) : containsSubL n (n ++ t) = true :=
  containsSubL_of_isPrefixOf _ _ (isPrefixOf_append_self n t)

theorem containsSubL_append_left (n l t : List Char) (h : containsSubL n t = true) :
    containsSubL n (l ++ t) = true := by
  induction l with
  | nil => simpa using h
  | cons c cs ih => simp [containsSubL, ih]

theorem dictGet_dictSet_self (m : StateMap) (k : String) (v : EntityRecord) :
    dictGet (dictSet m k v) k = some v := by
  induction m with
  | nil => simp [dictSet, dictGet]
  | cons p rest ih =>
    obtain ⟨k1, v1⟩ := p
    by_cases hk : k1 = k
    · subst hk; simp [dictSet, dictGet]
    · simp [dictSet, dictGet, hk, ih]

theorem dictGet_dictSet_ne (m : StateMap) (k : String) (v : EntityRecord)
    (k' : String) (h : k' ≠ k) : dictGet (dictSet m k v) k' = dictGet m k' := by
  induction m with
  | nil => simp [dictSet, dictGet, Ne.symm h]
  | cons p rest ih =>
    obtain ⟨k1, v1⟩ := p
    by_cases hk : k1 = k
    · subst hk
      simp [dictSet, dictGet, Ne.symm h]
    · by_cases hk' : k1 = k'
      · subst hk'; simp [dictSet, dictGet, hk]
      · simp [dictSet, dictGet, hk, hk', ih]

theorem recEqExceptTime_refl (a : EntityRecord) : recEqExceptTime a a :=
  ⟨rfl, rfl, rfl, rfl, rfl, rfl, rfl⟩

theorem forall₂_entryEqExceptTime_refl (m : StateMap) :
    List.Forall₂ entryEqExceptTime m m := by
  induction m with
  | nil => exact List.Forall₂.nil
  | cons p rest ih => exact List.Forall₂.cons ⟨rfl, recEqExceptTime_refl _⟩ ih

theorem dictSet_dictSet_forall₂ (m : StateMap) (k : String) (v w : EntityRecord)
    (h : recEqExceptTime w v) :
    List.Forall₂ entryEqExceptTime (dictSet (dictSet m k v) k w) (dictSet m k v) := by
  induction m with
  | nil =>
    simp only [dictSet, if_pos rfl]
    exact List.Forall₂.cons ⟨rfl, h⟩ List.Forall₂.nil
  | cons p rest ih =>
    obtain ⟨k1, v1⟩ := p
    by_cases hk : k1 = k
    · subst hk
      simp only [dictSet, if_pos rfl]
      exact List.Forall₂.cons ⟨rfl, h⟩ (forall₂_entryEqExceptTime_refl rest)
    · simp only [dictSet, if_neg hk]
      exact List.Forall₂.cons ⟨rfl, recEqExceptTime_refl _⟩ ih

end AdvWatch
namespace AdvWatch

/-! ### Marker content and change-flag lemmas -/

theorem containsSub_markerText_prev_date (pd fd : String) (pf : Option String)
    (f url : String) : containsSub pd (markerText pd fd pf f url) = true := by
  unfold containsSub markerText
  simp only [String.toList, String.data_append, List.append_assoc]
  exact containsSubL_append_left _ _ _
    (containsSubL_append_left _ _ _ (containsSubL_self_append _ _))

theorem containsSub_markerText_filing_date (pd fd : String) (pf : Option String)
    (f url : String) : containsSub fd (markerText pd fd pf f url) = true := by
  unfold containsSub markerText
  simp only [String.toList, String.data_append, List.append_assoc]
  exact containsSubL_append_left _ _ _ (containsSubL_append_left _ _ _
    (containsSubL_append_left _ _ _ (containsSubL_append_left _ _ _
      (containsSubL_append_left _ _ _ (containsSubL_self_append _ _)))))

theorem containsSub_markerText_prev_flng (pd fd pf f url : String) :
    containsSub pf (markerText pd fd (some pf) f url) = true := by
  unfold containsSub markerText
  simp only [pyStr, String.toList, String.data_append, List.append_assoc]
  exact containsSubL_append_left _ _ _ (containsSubL_append_left _ _ _
    (containsSubL_append_left _ _ _ (containsSubL_append_left _ _ _
      (containsSubL_append_left _ _ _ (containsSubL_append_left _ _ _
        (containsSubL_append_left _ _ _ (containsSubL_append_left _ _ _
          (containsSubL_self_append _ _))))))))

theorem containsSub_markerText_flng (pd fd : String) (pf : Option String)
    (f url : String) : containsSub f (markerText pd fd pf f url) = true := by
  unfold containsSub markerText
  simp only [String.toList, String.data_append, List.append_assoc]
  exact containsSubL_append_left _ _ _ (containsSubL_append_left _ _ _
    (containsSubL_append_left _ _ _ (containsSubL_append_left _ _ _
      (containsSubL_append_left _ _ _ (containsSubL_append_left _ _ _
        (containsSubL_append_left _ _ _ (containsSubL_append_left _ _ _
          (containsSubL_append_left _ _ _ (containsSubL_append_left _ _ _
            (containsSubL_append_left _ _ _
              (containsSubL_self_append _ _)))))))))))

theorem containsSub_markerText_url (pd fd : String) (pf : Option String)
    (f url : String) : containsSub url (markerText pd fd pf f url) = true := by
  unfold containsSub markerText
  simp only [String.toList, String.data_append, List.append_assoc]
  exact containsSubL_append_left _ _ _ (containsSubL_append_left _ _ _
    (containsSubL_append_left _ _ _ (containsSubL_append_left _ _ _
      (containsSubL_append_left _ _ _ (containsSubL_append_left _ _ _
        (containsSubL_append_left _ _ _ (containsSubL_append_left _ _ _
          (containsSubL_append_left _ _ _ (containsSubL_append_left _ _ _
            (containsSubL_append_left _ _ _ (containsSubL_append_left _ _ _
              (containsSubL_append_left _ _ _ (containsSubL_append_left _ _ _
                (containsSubL_self_append _ _))))))))))))))

theorem pyStrNe_eq_true_iff (c : String) (s : Option String) :
    pyStrNe c s = true ↔ some c ≠ s := by
  cases s with
  | none => simp [pyStrNe]
  | some p => simp [pyStrNe, bne_iff_ne]

theorem changed_flag_iff (fd pd f : String) (s : Option String) :
    (fd != pd || pyStrNe f s) = true ↔ (fd ≠ pd ∨ some f ≠ s) := by
  rw [Bool.or_eq_true, bne_iff_ne, pyStrNe_eq_true_iff]

end AdvWatch

namespace AdvWatch

/-! ### Computation lemmas for the main pipeline -/

theorem runMain_error_link (state : StateMap) (h : String)
    (fS : String → Except String String) (now e : String)
    (hE : extract_latest_viewform_link h = .error e) :
    runMain state h fS now = .error e := by
  unfold runMain
  simp only [hE]

theorem runMain_baseline (state : StateMap) (summary_html : String)
    (fS : String → Except String String) (now u o f sig fd : String)
    (hprev : ((dictGet state "elliott").getD {}).filing_date = none)
    (hE : extract_latest_viewform_link summary_html = .ok u)
    (hOF : extract_org_and_flng u = .ok (o, f))
    (hS : fS (build_signature_url o f) = .ok sig)
    (hD : extract_filing_date sig = .ok fd) :
    runMain state summary_html fS now =
      .ok { state := dictSet state "elliott" (newRecord now u o f fd),
            classification := .BASELINE, marker := none,
            printed := "First run baseline stored: " ++ fd ++ " (" ++ f ++ ")" } := by
  unfold runMain
  simp only [hE, hOF, hS, hD, hprev, save_state]

theorem runMain_changed (state : StateMap) (summary_html : String)
    (fS : String → Except String String) (now u o f sig fd pd : String)
    (hprev : ((dictGet state "elliott").getD {}).filing_date = some pd)
    (hflag : (fd != pd || pyStrNe f ((dictGet state "elliott").getD {}).flng_pk) = true)
    (hE : extract_latest_viewform_link summary_html = .ok u)
    (hOF : extract_org_and_flng u = .ok (o, f))
    (hS : fS (build_signature_url o f) = .ok sig)
    (hD : extract_filing_date sig = .ok fd) :
    runMain state summary_html fS now =
      .ok { state := dictSet state "elliott" (newRecord now u o f fd),
            classification := .CHANGED,
            marker := some (markerText pd fd ((dictGet state "elliott").getD {}).flng_pk
              f (build_signature_url o f)),
            printed := "CHANGED" } := by
  unfold runMain
  simp only [hE, hOF, hS, hD, hprev, save_state, hflag, if_true]

theorem runMain_unchanged (state : StateMap) (summary_html : String)
    (fS : String → Except String String) (now u o f sig fd pd : String)
    (hprev : ((dictGet state "elliott").getD {}).filing_date = some pd)
    (hflag : (fd != pd || pyStrNe f ((dictGet state "elliott").getD {}).flng_pk) = false)
    (hE : extract_latest_viewform_link summary_html = .ok u)
    (hOF : extract_org_and_flng u = .ok (o, f))
    (hS : fS (build_signature_url o f) = .ok sig)
    (hD : extract_filing_date sig = .ok fd) :
    runMain state summary_html fS now =
      .ok { state := dictSet state "elliott" (newRecord now u o f fd),
            classification := .UNCHANGED, marker := none,
            printed := "NO CHANGE" } := by
  unfold runMain
  simp only [hE, hOF, hS, hD, hprev, save_state, hflag, Bool.false_eq_true, if_false]

theorem runMain_ok_inv (state : StateMap) (h : String)
    (fS : String → Except String String) (now : String) (r : RunResult)
    (hok : runMain state h fS now = .ok r) :
    ∃ u o f sig fd,
      extract_latest_viewform_link h = .ok u ∧
      extract_org_and_flng u = .ok (o, f) ∧
      fS (build_signature_url o f) = .ok sig ∧
      extract_filing_date sig = .ok fd ∧
      r.state = dictSet state "elliott" (newRecord now u o f fd) := by
  unfold runMain at hok
  cases hE : extract_latest_viewform_link h with
  | error e =>
    simp only [hE] at hok
    exact Except.noConfusion hok
  | ok u =>
    simp only [hE] at hok
    cases hOF : extract_org_and_flng u with
    | error e =>
      simp only [hOF] at hok
      exact Except.noConfusion hok
    | ok p =>
      obtain ⟨o, f⟩ := p
      simp only [hOF] at hok
      cases hS : fS (build_signature_url o f) with
      | error e =>
        simp only [hS] at hok
        exact Except.noConfusion hok
      | ok sig =>
        simp only [hS] at hok
        cases hD : extract_filing_date sig with
        | error e =>
          simp only [hD] at hok
          exact Except.noConfusion hok
        | ok fd =>
          simp only [hD, save_state] at hok
          refine ⟨u, o, f, sig, fd, rfl, hOF, hS, hD, ?_⟩
          cases hpd : ((dictGet state "elliott").getD {}).filing_date with
          | none =>
            simp only [hpd] at hok
            cases hok
            rfl
          | some pd =>
            simp only [hpd] at hok
            by_cases hflag :
                (fd != pd || pyStrNe f ((dictGet state "elliott").getD {}).flng_pk) = true
            · simp only [hflag, if_true] at hok
              cases hok
              rfl
            · simp only [hflag, if_false] at hok
              cases hok
              rfl

end AdvWatch

namespace AdvWatch

/-! ### Query-string value lemmas -/

theorem unquotePlus_cons_ne_nil (c : Char) (rest : List Char) :
    unquotePlus (c :: rest) ≠ [] := by
  rw [unquotePlus.eq_def]
  split
  · simp_all
  · simp
  · split <;> simp
  · simp

theorem parse_qsl_snd_ne_empty (qs : List Char) (p : String × String)
    (hmem : p ∈ parse_qsl qs) : p.2 ≠ "" := by
  unfold parse_qsl at hmem
  rw [List.mem_filterMap] at hmem
  obtain ⟨fld, _, hsome⟩ := hmem
  cases fld with
  | nil => simp at hsome
  | cons c rest =>
    simp only [List.isEmpty_cons, Bool.false_eq_true, reduceIte] at hsome
    cases hsp : splitOnce '=' (c :: rest) with
    | none => rw [hsp] at hsome; simp at hsome
    | some nv =>
      obtain ⟨n, v⟩ := nv
      rw [hsp] at hsome
      cases v with
      | nil => simp at hsome
      | cons d t =>
        simp only [List.isEmpty_cons, Bool.false_eq_true, reduceIte,
          Option.some.injEq] at hsome
        rw [← hsome]
        intro hemp
        have : unquotePlus (d :: t) = [] := by
          have := congrArg String.data hemp
          simpa using this
        exact unquotePlus_cons_ne_nil d t this

theorem qsFirst_parse_qsl_ne_empty (qs : List Char) (k v : String)
    (h : qsFirst (parse_qsl qs) k = some v) : v ≠ "" := by
  unfold qsFirst at h
  cases hf : (parse_qsl qs).find? (fun p => p.1 == k) with
  | none => rw [hf] at h; simp at h
  | some p =>
    rw [hf] at h
    simp only [Option.map_some', Option.some.injEq] at h
    rw [← h]
    exact parse_qsl_snd_ne_empty qs p (List.mem_of_find?_eq_some hf)

/-! ### Date-search lemmas -/

theorem dateMatchAt_false_of_le (cs : List Char) (k : Nat) (h : cs.length ≤ k) :
    dateMatchAt cs k = false := by
  have hd : cs.drop k = [] := List.drop_eq_nil_of_le h
  simp [dateMatchAt, hd, dateShape]

theorem findDateAux_eq_some (cs : List Char) :
    ∀ (fuel i j : Nat), findDateAux cs i fuel = some j →
      dateMatchAt cs j = true ∧ i ≤ j ∧
        ∀ k, i ≤ k → k < j → dateMatchAt cs k = false := by
  intro fuel
  induction fuel with
  | zero => intro i j h; simp [findDateAux] at h
  | succ n ih =>
    intro i j h
    rw [findDateAux] at h
    by_cases hm : dateMatchAt cs i = true
    · rw [if_pos hm] at h
      cases h
      exact ⟨hm, Nat.le_refl _, fun k hk1 hk2 => absurd hk2 (by omega)⟩
    · rw [if_neg hm] at h
      obtain ⟨h1, h2, h3⟩ := ih (i + 1) j h
      refine ⟨h1, by omega, fun k hk1 hk2 => ?_⟩
      by_cases hk : k = i
      · subst hk
        exact Bool.not_eq_true _ ▸ hm
      · exact h3 k (by omega) hk2

theorem findDateAux_eq_some_of (cs : List Char) :
    ∀ (fuel i j : Nat), i ≤ j → j < i + fuel → dateMatchAt cs j = true →
      (∀ k, i ≤ k → k < j → dateMatchAt cs k = false) →
      findDateAux cs i fuel = some j := by
  intro fuel
  induction fuel with
  | zero => intro i j h1 h2; omega
  | succ n ih =>
    intro i j h1 h2 hm hleast
    rw [findDateAux]
    by_cases hij : i = j
    · subst hij
      rw [if_pos hm]
    · have hlt : i < j := by omega
      have hfalse : dateMatchAt cs i = false := hleast i (Nat.le_refl _) hlt
      rw [if_neg (by simp [hfalse])]
      exact ih (i + 1) j (by omega) (by omega) hm
        (fun k hk1 hk2 => hleast k (by omega) hk2)

theorem findDateAux_eq_none (cs : List Char) :
    ∀ (fuel i : Nat), findDateAux cs i fuel = none →
      ∀ k, i ≤ k → k < i + fuel → dateMatchAt cs k = false := by
  intro fuel
  induction fuel with
  | zero => intro i h k hk1 hk2; omega
  | succ n ih =>
    intro i h k hk1 hk2
    rw [findDateAux] at h
    by_cases hm : dateMatchAt cs i = true
    · rw [if_pos hm] at h; exact Option.noConfusion h
    · rw [if_neg hm] at h
      by_cases hk : k = i
      · subst hk
        exact Bool.not_eq_true _ ▸ hm
      · exact ih (i + 1) h k (by omega) (by omega)

end AdvWatch

namespace AdvWatch

/-! ### Claim theorems -/

/-- C1: for every prior record that stores a filing date and for every
current run result, the run is classified CHANGED if and only if the
current filing date differs from the stored filing date or the current
filing identifier (FLNG_PK) differs from the stored one; otherwise it is
classified UNCHANGED. -/
theorem c1_change_detection (state : StateMap) (summary_html : String)
    (fS : String → Except String String) (now u o f sig fd pd : String)
    (prev : EntityRecord)
    (hp : (dictGet state "elliott").getD {} = prev)
    (hpd : prev.filing_date = some pd)
    (hE : extract_latest_viewform_link summary_html = .ok u)
    (hOF : extract_org_and_flng u = .ok (o, f))
    (hS : fS (build_signature_url o f) = .ok sig)
    (hD : extract_filing_date sig = .ok fd) :
    ∃ r, runMain state summary_html fS now = .ok r ∧
      (r.classification = .CHANGED ↔ (fd ≠ pd ∨ some f ≠ prev.flng_pk)) ∧
      (¬(fd ≠ pd ∨ some f ≠ prev.flng_pk) → r.classification = .UNCHANGED) := by
  have hprev : ((dictGet state "elliott").getD {}).filing_date = some pd := by
    rw [hp]; exact hpd
  by_cases hflag : (fd != pd || pyStrNe f ((dictGet state "elliott").getD {}).flng_pk) = true
  · have hcond : fd ≠ pd ∨ some f ≠ prev.flng_pk := by
      rw [← changed_flag_iff fd pd f prev.flng_pk, ← hp]
      exact hflag
    refine ⟨_, runMain_changed state summary_html fS now u o f sig fd pd
      hprev hflag hE hOF hS hD, ?_, ?_⟩
    · exact ⟨fun _ => hcond, fun _ => rfl⟩
    · intro hn; exact absurd hcond hn
  · have hflag' :
        (fd != pd || pyStrNe f ((dictGet state "elliott").getD {}).flng_pk) = false := by
      simpa using hflag
    have hncond : ¬(fd ≠ pd ∨ some f ≠ prev.flng_pk) := by
      rw [← changed_flag_iff fd pd f prev.flng_pk, ← hp, hflag']
      simp
    refine ⟨_, runMain_unchanged state summary_html fS now u o f sig fd pd
      hprev hflag' hE hOF hS hD, ?_, ?_⟩
    · constructor
      · intro hc; exact Classification.noConfusion hc
      · intro hcond; exact absurd hcond hncond
    · intro _; rfl

/-- C1 witness: a stored record with date 01/15/2024 and identifier A,
against a current run extracting 02/20/2024 and identifier A. -/
theorem c1_witness :
    ∃ r, runMain [("elliott", { filing_date := some "01/15/2024", flng_pk := some "A" })]
        "<a href=\"/x?ORG_PK=1&FLNG_PK=A\">v</a>"
        (fun _ => Except.ok "Filed 02/20/2024") "t2" = .ok r ∧
      (r.classification = .CHANGED ↔
        ("02/20/2024" ≠ "01/15/2024" ∨ some "A" ≠
          ({ filing_date := some "01/15/2024", flng_pk := some "A" } : EntityRecord).flng_pk)) ∧
      (¬("02/20/2024" ≠ "01/15/2024" ∨ some "A" ≠
          ({ filing_date := some "01/15/2024", flng_pk := some "A" } : EntityRecord).flng_pk) →
        r.classification = .UNCHANGED) :=
  c1_change_detection _ _ _ _
    "https://adviserinfo.sec.gov/x?ORG_PK=1&FLNG_PK=A" "1" "A"
    "Filed 02/20/2024" "02/20/2024" "01/15/2024" _ rfl rfl rfl rfl rfl rfl

end AdvWatch

namespace AdvWatch

/-- C2: for every run in which the prior record has no stored filing
date (including when the state file is missing, which loads as an empty
mapping), the run is classified BASELINE: it prints the baseline
message, persists the new record, and never writes a marker file and is
never classified as changed. -/
theorem c2_baseline_run (state : StateMap) (summary_html : String)
    (fS : String → Except String String) (now u o f sig fd : String)
    (prev : EntityRecord)
    (hp : (dictGet state "elliott").getD {} = prev)
    (hpd : prev.filing_date = none)
    (hE : extract_latest_viewform_link summary_html = .ok u)
    (hOF : extract_org_and_flng u = .ok (o, f))
    (hS : fS (build_signature_url o f) = .ok sig)
    (hD : extract_filing_date sig = .ok fd) :
    load_state none = ([] : StateMap) ∧
    ∃ r, runMain state summary_html fS now = .ok r ∧
      r.classification = .BASELINE ∧ r.classification ≠ .CHANGED ∧
      r.marker = none ∧
      r.printed = "First run baseline stored: " ++ fd ++ " (" ++ f ++ ")" ∧
      dictGet r.state "elliott" = some (newRecord now u o f fd) := by
  have hprev : ((dictGet state "elliott").getD {}).filing_date = none := by
    rw [hp]; exact hpd
  refine ⟨rfl, _, runMain_baseline state summary_html fS now u o f sig fd
    hprev hE hOF hS hD, rfl, ?_, rfl, rfl, ?_⟩
  · intro hc; exact Classification.noConfusion hc
  · exact dictGet_dictSet_self state "elliott" (newRecord now u o f fd)

/-- C2 witness: the empty state (a missing state file) together with a
concrete summary page and signature page. -/
theorem c2_witness :
    load_state none = ([] : StateMap) ∧
    ∃ r, runMain [] "<a href=\"/x?ORG_PK=1&FLNG_PK=A\">v</a>"
        (fun _ => Except.ok "Filed on 03/07/2024 by agent") "t1" = .ok r ∧
      r.classification = .BASELINE ∧ r.classification ≠ .CHANGED ∧
      r.marker = none ∧
      r.printed = "First run baseline stored: " ++ "03/07/2024" ++ " (" ++ "A" ++ ")" ∧
      dictGet r.state "elliott" =
        some (newRecord "t1" "https://adviserinfo.sec.gov/x?ORG_PK=1&FLNG_PK=A"
          "1" "A" "03/07/2024") :=
  c2_baseline_run [] _ _ "t1" "https://adviserinfo.sec.gov/x?ORG_PK=1&FLNG_PK=A"
    "1" "A" "Filed on 03/07/2024 by agent" "03/07/2024" {} rfl rfl rfl rfl rfl rfl

/-- C5: for every run classified CHANGED, the marker file content
contains verbatim the previous and current filing dates, the previous
and current filing identifiers, and the signature-page URL used; for
every run classified BASELINE or UNCHANGED, no marker file is written. -/
theorem c5_marker_content (state : StateMap) (summary_html : String)
    (fS : String → Except String String) (now u o f sig fd : String)
    (prev : EntityRecord)
    (hp : (dictGet state "elliott").getD {} = prev)
    (hE : extract_latest_viewform_link summary_html = .ok u)
    (hOF : extract_org_and_flng u = .ok (o, f))
    (hS : fS (build_signature_url o f) = .ok sig)
    (hD : extract_filing_date sig = .ok fd) :
    ∃ r, runMain state summary_html fS now = .ok r ∧
      (r.classification = .CHANGED →
        ∃ pd m, prev.filing_date = some pd ∧ r.marker = some m ∧
          containsSub pd m = true ∧ containsSub fd m = true ∧
          (∀ pf, prev.flng_pk = some pf → containsSub pf m = true) ∧
          containsSub f m = true ∧
          containsSub (build_signature_url o f) m = true) ∧
      ((r.classification = .BASELINE ∨ r.classification = .UNCHANGED) →
        r.marker = none) := by
  cases hpd : prev.filing_date with
  | none =>
    have hprev : ((dictGet state "elliott").getD {}).filing_date = none := by
      rw [hp]; exact hpd
    refine ⟨_, runMain_baseline state summary_html fS now u o f sig fd
      hprev hE hOF hS hD, ?_, ?_⟩
    · intro hc; exact Classification.noConfusion hc
    · intro _; rfl
  | some pd =>
    have hprev : ((dictGet state "elliott").getD {}).filing_date = some pd := by
      rw [hp]; exact hpd
    by_cases hflag :
        (fd != pd || pyStrNe f ((dictGet state "elliott").getD {}).flng_pk) = true
    · have hm := runMain_changed state summary_html fS now u o f sig fd pd
        hprev hflag hE hOF hS hD
      rw [hp] at hm
      refine ⟨_, hm, ?_, ?_⟩
      · intro _
        refine ⟨pd, _, rfl, rfl, ?_, ?_, ?_, ?_, ?_⟩
        · exact containsSub_markerText_prev_date pd fd prev.flng_pk f _
        · exact containsSub_markerText_filing_date pd fd prev.flng_pk f _
        · intro pf hpf
          rw [hpf]
          exact containsSub_markerText_prev_flng pd fd pf f _
        · exact containsSub_markerText_flng pd fd prev.flng_pk f _
        · exact containsSub_markerText_url pd fd prev.flng_pk f _
      · intro hor
        cases hor with
        | inl hc => exact Classification.noConfusion hc
        | inr hc => exact Classification.noConfusion hc
    · have hflag' :
          (fd != pd || pyStrNe f ((dictGet state "elliott").getD {}).flng_pk) = false := by
        simpa using hflag
      refine ⟨_, runMain_unchanged state summary_html fS now u o f sig fd pd
        hprev hflag' hE hOF hS hD, ?_, ?_⟩
      · intro hc; exact Classification.noConfusion hc
      · intro _; rfl

/-- C5 witness: a stored record with date 01/15/2024 and identifier B;
the current run extracts date 02/20/2024 and identifier A, so the run is
CHANGED and the marker contains every one of the five values. -/
theorem c5_witness :
    ∃ r, runMain [("elliott", { filing_date := some "01/15/2024", flng_pk := some "B" })]
        "<a href=\"/x?ORG_PK=1&FLNG_PK=A\">v</a>"
        (fun _ => Except.ok "Filed 02/20/2024") "t2" = .ok r ∧
      (r.classification = .CHANGED →
        ∃ pd m,
          ({ filing_date := some "01/15/2024", flng_pk := some "B" } :
            EntityRecord).filing_date = some pd ∧ r.marker = some m ∧
          containsSub pd m = true ∧ containsSub "02/20/2024" m = true ∧
          (∀ pf, ({ filing_date := some "01/15/2024", flng_pk := some "B" } :
            EntityRecord).flng_pk = some pf → containsSub pf m = true) ∧
          containsSub "A" m = true ∧
          containsSub (build_signature_url "1" "A") m = true) ∧
      ((r.classification = .BASELINE ∨ r.classification = .UNCHANGED) →
        r.marker = none) :=
  c5_marker_content [("elliott", { filing_date := some "01/15/2024", flng_pk := some "B" })]
    _ _ "t2" "https://adviserinfo.sec.gov/x?ORG_PK=1&FLNG_PK=A" "1" "A"
    "Filed 02/20/2024" "02/20/2024" _ rfl rfl rfl rfl rfl

end AdvWatch

namespace AdvWatch

/-- C6: running the pipeline twice in immediate succession against
unchanged upstream content (same summary page, same fetched signature
page) classifies the second run UNCHANGED with no marker, and the second
written state agrees with the first on every key and every record field
except the last-checked timestamp. -/
theorem c6_idempotent (state : StateMap) (summary_html : String)
    (fS : String → Except String String) (now1 now2 : String) (r1 : RunResult)
    (h1 : runMain state summary_html fS now1 = .ok r1) :
    ∃ r2, runMain r1.state summary_html fS now2 = .ok r2 ∧
      r2.classification = .UNCHANGED ∧ r2.marker = none ∧
      r2.printed = "NO CHANGE" ∧
      List.Forall₂ entryEqExceptTime r2.state r1.state := by
  obtain ⟨u, o, f, sig, fd, hE, hOF, hS, hD, hstate⟩ :=
    runMain_ok_inv state summary_html fS now1 r1 h1
  have hget : dictGet r1.state "elliott" = some (newRecord now1 u o f fd) := by
    rw [hstate]
    exact dictGet_dictSet_self state "elliott" (newRecord now1 u o f fd)
  have hprev : ((dictGet r1.state "elliott").getD {}).filing_date = some fd := by
    rw [hget]; rfl
  have hflag :
      (fd != fd || pyStrNe f ((dictGet r1.state "elliott").getD {}).flng_pk) = false := by
    rw [hget]
    simp [pyStrNe, newRecord]
  refine ⟨_, runMain_unchanged r1.state summary_html fS now2 u o f sig fd fd
    hprev hflag hE hOF hS hD, rfl, rfl, rfl, ?_⟩
  rw [hstate]
  exact dictSet_dictSet_forall₂ state "elliott" (newRecord now1 u o f fd)
    (newRecord now2 u o f fd) ⟨rfl, rfl, rfl, rfl, rfl, rfl, rfl⟩

/-- C6 witness: the baseline run on the empty state followed by a second
run against the identical upstream content. -/
theorem c6_witness :
    ∃ r2, runMain
        ({ state :=
             [("elliott",
               newRecord "t1" "https://adviserinfo.sec.gov/x?ORG_PK=1&FLNG_PK=A"
                 "1" "A" "03/07/2024")],
           classification := .BASELINE, marker := none,
           printed := "First run baseline stored: 03/07/2024 (A)" } : RunResult).state
        "<a href=\"/x?ORG_PK=1&FLNG_PK=A\">v</a>"
        (fun _ => Except.ok "Filed on 03/07/2024 by agent") "t2" = .ok r2 ∧
      r2.classification = .UNCHANGED ∧ r2.marker = none ∧
      r2.printed = "NO CHANGE" ∧
      List.Forall₂ entryEqExceptTime r2.state
        ({ state :=
             [("elliott",
               newRecord "t1" "https://adviserinfo.sec.gov/x?ORG_PK=1&FLNG_PK=A"
                 "1" "A" "03/07/2024")],
           classification := .BASELINE, marker := none,
           printed := "First run baseline stored: 03/07/2024 (A)" } : RunResult).state :=
  c6_idempotent [] "<a href=\"/x?ORG_PK=1&FLNG_PK=A\">v</a>"
    (fun _ => Except.ok "Filed on 03/07/2024 by agent") "t1" "t2" _ rfl

/-- C7: when neither the anchor scan nor the fallback pattern search
finds a link, the locator fails with the not-found error and the whole
run aborts with that error: no state is written and no marker file is
produced. -/
theorem c7_not_found_aborts (state : StateMap) (summary_html : String)
    (fS : String → Except String String) (now : String)
    (hA : anchorScan summary_html = none)
    (hF : fallbackSearch summary_html = none) :
    extract_latest_viewform_link summary_html =
      .error "Could not find latest ADV viewform link on firm summary page." ∧
    runMain state summary_html fS now =
      .error "Could not find latest ADV viewform link on firm summary page." := by
  have hE : extract_latest_viewform_link summary_html =
      .error "Could not find latest ADV viewform link on firm summary page." := by
    unfold extract_latest_viewform_link
    rw [hA, hF]
  exact ⟨hE, runMain_error_link state summary_html fS now _ hE⟩

/-- C7 witness: a summary page with no link at all. -/
theorem c7_witness :
    extract_latest_viewform_link "no links here" =
      .error "Could not find latest ADV viewform link on firm summary page." ∧
    runMain [] "no links here" (fun _ => Except.ok "") "t1" =
      .error "Could not find latest ADV viewform link on firm summary page." :=
  c7_not_found_aborts [] "no links here" (fun _ => Except.ok "") "t1" rfl rfl

/-- C9: change detection does not consult the organization identifier:
when the current filing date and FLNG_PK equal the stored ones, the run
is classified UNCHANGED with no marker even though the stored ORG_PK
differs from the current one. -/
theorem c9_org_pk_ignored (state : StateMap) (summary_html : String)
    (fS : String → Except String String) (now u o f sig fd : String)
    (prev : EntityRecord)
    (hp : (dictGet state "elliott").getD {} = prev)
    (hpd : prev.filing_date = some fd)
    (hpf : prev.flng_pk = some f)
    (horg : prev.org_pk ≠ some o)
    (hE : extract_latest_viewform_link summary_html = .ok u)
    (hOF : extract_org_and_flng u = .ok (o, f))
    (hS : fS (build_signature_url o f) = .ok sig)
    (hD : extract_filing_date sig = .ok fd) :
    ∃ r, runMain state summary_html fS now = .ok r ∧
      r.classification = .UNCHANGED ∧ r.marker = none := by
  have hprev : ((dictGet state "elliott").getD {}).filing_date = some fd := by
    rw [hp]; exact hpd
  have hflag :
      (fd != fd || pyStrNe f ((dictGet state "elliott").getD {}).flng_pk) = false := by
    rw [hp, hpf]
    simp [pyStrNe]
  exact ⟨_, runMain_unchanged state summary_html fS now u o f sig fd fd
    hprev hflag hE hOF hS hD, rfl, rfl⟩

/-- C9 witness: the stored ORG_PK is 999 while the current one is 1;
date and FLNG_PK agree, and the run is UNCHANGED. -/
theorem c9_witness :
    ∃ r, runMain
        [("elliott",
          { org_pk := some "999", flng_pk := some "A",
            filing_date := some "03/07/2024" })]
        "<a href=\"/x?ORG_PK=1&FLNG_PK=A\">v</a>"
        (fun _ => Except.ok "Filed on 03/07/2024 by agent") "t2" = .ok r ∧
      r.classification = .UNCHANGED ∧ r.marker = none :=
  c9_org_pk_ignored _ _ _ "t2" "https://adviserinfo.sec.gov/x?ORG_PK=1&FLNG_PK=A"
    "1" "A" "Filed on 03/07/2024 by agent" "03/07/2024" _ rfl rfl rfl
    (by decide) rfl rfl rfl rfl

/-- C10: a successful run only replaces the monitored entity's record;
the entry of every other key in the state file is unchanged. -/
theorem c10_frame_other_keys (state : StateMap) (summary_html : String)
    (fS : String → Except String String) (now : String) (r : RunResult)
    (hok : runMain state summary_html fS now = .ok r) :
    ∀ k, k ≠ "elliott" → dictGet r.state k = dictGet state k := by
  obtain ⟨u, o, f, sig, fd, _, _, _, _, hstate⟩ :=
    runMain_ok_inv state summary_html fS now r hok
  intro k hk
  rw [hstate]
  exact dictGet_dictSet_ne state "elliott" (newRecord now u o f fd) k hk

/-- C10 witness: a state holding an unrelated key `other`, whose entry
is untouched by a successful run. -/
theorem c10_witness :
    dictGet
      ({ state :=
           [("other", { filing_date := some "zz" }),
            ("elliott",
             newRecord "t1" "https://adviserinfo.sec.gov/x?ORG_PK=1&FLNG_PK=A"
               "1" "A" "03/07/2024")],
         classification := .BASELINE, marker := none,
         printed := "First run baseline stored: 03/07/2024 (A)" } : RunResult).state
      "other" =
    dictGet [("other", { filing_date := some "zz" })] "other" :=
  c10_frame_other_keys [("other", { filing_date := some "zz" })]
    "<a href=\"/x?ORG_PK=1&FLNG_PK=A\">v</a>"
    (fun _ => Except.ok "Filed on 03/07/2024 by agent") "t1" _ rfl "other" (by simp)

end AdvWatch

namespace AdvWatch

/-- C4 counterexample: the markup's only (hence first) anchor href
contains both `ORG_PK=` and `FLNG_PK=`, but because it starts with
neither `/` nor `http` the loop skips it and the locator fails instead
of returning that anchor's resolved target. -/
theorem c4_counterexample :
    findAHrefs "<a href=\"rel?ORG_PK=1&FLNG_PK=A\">x</a>" = ["rel?ORG_PK=1&FLNG_PK=A"] ∧
    containsSub "ORG_PK=" "rel?ORG_PK=1&FLNG_PK=A" = true ∧
    containsSub "FLNG_PK=" "rel?ORG_PK=1&FLNG_PK=A" = true ∧
    extract_latest_viewform_link "<a href=\"rel?ORG_PK=1&FLNG_PK=A\">x</a>" =
      .error "Could not find latest ADV viewform link on firm summary page." :=
  ⟨rfl, rfl, rfl, rfl⟩

/-- C4 (amended): the locator returns the resolution of the first
anchor href that contains both `ORG_PK=` and `FLNG_PK=` and starts with
`/` (resolved against the host) or with `http` (returned as is); an
anchor containing both parameters but starting otherwise is skipped. -/
theorem c4_first_resolvable_anchor (summary_html : String) (pre post : List String)
    (href u : String)
    (hlist : findAHrefs summary_html = pre ++ href :: post)
    (hpre : ∀ h2 ∈ pre, anchorPick h2 = none)
    (hpick : anchorPick href = some u) :
    extract_latest_viewform_link summary_html = .ok u := by
  have hscan : anchorScan summary_html = some u := by
    unfold anchorScan
    rw [hlist, List.findSome?_append, List.findSome?_eq_none_iff.mpr hpre]
    simp [List.findSome?_cons, hpick]
  unfold extract_latest_viewform_link
  rw [hscan]

/-- C4 witness: the claim's concrete example, a host-relative anchor
containing both parameters, resolved against the known host. -/
theorem c4_witness :
    extract_latest_viewform_link
        "<p><a href=\"/path?ORG_PK=123&FLNG_PK=ABC\">view</a></p>" =
      .ok "https://adviserinfo.sec.gov/path?ORG_PK=123&FLNG_PK=ABC" :=
  c4_first_resolvable_anchor _ [] [] "/path?ORG_PK=123&FLNG_PK=ABC"
    "https://adviserinfo.sec.gov/path?ORG_PK=123&FLNG_PK=ABC" rfl
    (by intro x hx; exact absurd hx (List.not_mem_nil x)) rfl

/-- C8 counterexample: the query string of the URL does contain an
`ORG_PK` field (with an empty value), yet extraction fails with the
malformed-link error, contradicting "otherwise returns the pair". -/
theorem c8_counterexample :
    (splitOnChar '&' (urlQuery "https://x/p?ORG_PK=&FLNG_PK=A")).any
        (fun fld => "ORG_PK".toList.isPrefixOf fld) = true ∧
    extract_org_and_flng "https://x/p?ORG_PK=&FLNG_PK=A" =
      .error "Could not parse ORG_PK/FLNG_PK from URL: https://x/p?ORG_PK=&FLNG_PK=A" :=
  ⟨rfl, rfl⟩

/-- C8 (amended): identifier extraction fails with the malformed-link
error when either `ORG_PK` or `FLNG_PK` is absent from the parsed query
string (the query parser drops fields with an empty value or without
`=`), and otherwise returns the pair of first parameter values. -/
theorem c8_query_params (url : String) :
    ((qsFirst (parse_qsl (urlQuery url)) "ORG_PK" = none ∨
      qsFirst (parse_qsl (urlQuery url)) "FLNG_PK" = none) →
      extract_org_and_flng url =
        .error ("Could not parse ORG_PK/FLNG_PK from URL: " ++ url)) ∧
    (∀ o f, qsFirst (parse_qsl (urlQuery url)) "ORG_PK" = some o →
      qsFirst (parse_qsl (urlQuery url)) "FLNG_PK" = some f →
      extract_org_and_flng url = .ok (o, f)) := by
  constructor
  · intro habs
    unfold extract_org_and_flng
    cases ho : qsFirst (parse_qsl (urlQuery url)) "ORG_PK" with
    | none =>
      cases hf : qsFirst (parse_qsl (urlQuery url)) "FLNG_PK" <;> simp [ho, hf]
    | some o =>
      cases habs with
      | inl h1 => rw [ho] at h1; exact Option.noConfusion h1
      | inr h2 => simp [ho, h2]
  · intro o f ho hf
    have ho' : o ≠ "" := qsFirst_parse_qsl_ne_empty _ _ _ ho
    have hf' : f ≠ "" := qsFirst_parse_qsl_ne_empty _ _ _ hf
    unfold extract_org_and_flng
    simp [ho, hf, ho', hf']

/-- C8 witness: a URL carrying both parameters, extracted as the pair. -/
theorem c8_witness :
    extract_org_and_flng "https://adviserinfo.sec.gov/path?ORG_PK=123&FLNG_PK=ABC" =
      .ok ("123", "ABC") :=
  (c8_query_params "https://adviserinfo.sec.gov/path?ORG_PK=123&FLNG_PK=ABC").2
    "123" "ABC" rfl rfl

/-- C3 counterexample: the text contains the earlier shape-matching
substring 03/07/2024 (inside 1103/07/2024), but the regex's word
boundaries reject it there, so the code extracts the later 05/05/2025
instead of the first shape-matching substring. -/
theorem c3_counterexample :
    firstDateSubstring "1103/07/2024 05/05/2025".toList = some "03/07/2024".toList ∧
    extract_filing_date "1103/07/2024 05/05/2025" = .ok "05/05/2025" ∧
    ("05/05/2025" : String) ≠ "03/07/2024" :=
  ⟨rfl, rfl, by decide⟩

/-- C3 (amended): on the extracted page text, the code returns the
ten-character substring at the least index where the date pattern
matches between word boundaries (month 01-12, day 01-31, four-digit
year, no further calendar validity check), and fails with the
pattern-not-found error when no position matches. -/
theorem c3_date_extraction (text : String) :
    ((∃ i, dateMatchAt text.toList i = true) →
      ∃ i, dateMatchAt text.toList i = true ∧
        (∀ j, j < i → dateMatchAt text.toList j = false) ∧
        extract_date_from_text text =
          .ok (String.mk ((text.toList.drop i).take 10))) ∧
    ((∀ i, dateMatchAt text.toList i = false) →
      extract_date_from_text text =
        .error "Could not locate a MM/DD/YYYY date in signature page HTML.") := by
  constructor
  · intro hex
    have hi : dateMatchAt text.toList (Nat.find hex) = true := Nat.find_spec hex
    have hleast : ∀ j, j < Nat.find hex → dateMatchAt text.toList j = false := by
      intro j hj
      have := Nat.find_min hex hj
      simpa using this
    have hlen : Nat.find hex < text.toList.length := by
      by_contra hge
      rw [dateMatchAt_false_of_le _ _ (by omega)] at hi
      exact Bool.noConfusion hi
    have hfind : findDateAux text.toList 0 text.toList.length = some (Nat.find hex) :=
      findDateAux_eq_some_of _ _ 0 _ (Nat.zero_le _) (by omega) hi
        (fun k _ hk2 => hleast k hk2)
    refine ⟨Nat.find hex, hi, hleast, ?_⟩
    unfold extract_date_from_text findDate findDateIdx
    rw [hfind]
    rfl
  · intro hall
    unfold extract_date_from_text findDate findDateIdx
    cases hfind : findDateAux text.toList 0 text.toList.length with
    | none => rfl
    | some j =>
      have hj := (findDateAux_eq_some _ _ _ _ hfind).1
      rw [hall j] at hj
      exact Bool.noConfusion hj

/-- C3 witness: the claim's concrete example, extracting exactly
03/07/2024 at the least boundary-delimited match position. -/
theorem c3_witness :
    extract_date_from_text "Filed on 03/07/2024 by agent" = .ok "03/07/2024" ∧
    (∃ i, dateMatchAt "Filed on 03/07/2024 by agent".toList i = true ∧
      (∀ j, j < i → dateMatchAt "Filed on 03/07/2024 by agent".toList j = false) ∧
      extract_date_from_text "Filed on 03/07/2024 by agent" =
        .ok (String.mk (("Filed on 03/07/2024 by agent".toList.drop i).take 10))) :=
  ⟨rfl, (c3_date_extraction "Filed on 03/07/2024 by agent").1 ⟨9, by decide⟩⟩

end AdvWatch
